import Mathlib

/-!
Verification of the function-to-schedulable-unit adapter
(`crates/bevy_ecs/src/into_system.rs`).

The shallow embedding translates the source file's data and control flow:
`SystemFn` (with its `run`, `run_thread_local`, `initialize` methods), the
for-each and query constructor macros, the scoped `Query` view, and
`ThreadLocalSystem`.  Collaborators that the source uses but that are not
part of this file (the `Commands` deferred buffer, the `Resources`
container, the hecs `World` storage engine, the `ThreadLocalExecution`
enum from `system.rs`) are modelled from the spec's boundary contracts;
each such definition is marked in its doc comment.

Rust closures of trait `FnMut` carry mutable captured state; they are
embedded as a pure step function `sigma -> args -> sigma x output`
together with an explicit state value threaded through the run.
Machine identifiers (entity ids, component type ids, resource type ids,
unit ids) are embedded as `Nat`; component and resource payloads as `Int`.
-/

/-- Entity identifier (hecs `Entity`). -/
abbrev EntityId := Nat

/-- Component type identifier: stands for the static component type. -/
abbrev CompId := Nat

/-- Resource type identifier: stands for the static resource type. -/
abbrev ResId := Nat

/-- Look a component type up in one entity's component list. -/
def getComp : List (CompId × Int) → CompId → Option Int
  | [], _ => none
  | (c, v) :: rest, c0 => if c = c0 then some v else getComp rest c0

/-- Set (insert or overwrite) a component on one entity's component list. -/
def setComp : List (CompId × Int) → CompId → Int → List (CompId × Int)
  | [], c0, v0 => [(c0, v0)]
  | (c, v) :: rest, c0, v0 =>
      if c = c0 then (c0, v0) :: rest else (c, v) :: setComp rest c0 v0

/-- Remove a component type from one entity's component list. -/
def removeComp (cs : List (CompId × Int)) (c0 : CompId) : List (CompId × Int) :=
  cs.filter (fun p => ¬ p.1 = c0)

/-- Modelled from the spec: the entity storage engine (the hecs `World`,
an external collaborator specified only at its boundary).  Entities are
identifiers with an arbitrary set of components keyed by type; `nextId`
feeds fresh identifiers to `spawn`. -/
structure World where
  nextId : Nat
  entities : List (EntityId × List (CompId × Int))
  deriving DecidableEq, Repr

/-- Whether the world contains an entity with this identifier. -/
def World.hasEntity (w : World) (e : EntityId) : Bool :=
  w.entities.any (fun p => p.1 = e)

/-- The component value of type `c` on entity `e`, if both exist. -/
def World.compOf (w : World) (e : EntityId) (c : CompId) : Option Int :=
  match w.entities.find? (fun p => p.1 = e) with
  | none => none
  | some p => getComp p.2 c

/-- An entity's components satisfy a declared component shape when every
declared component type is present. -/
def entityMatches (shape : List CompId) (comps : List (CompId × Int)) : Bool :=
  shape.all (fun c => (getComp comps c).isSome)

/-- The component values of `comps` at the declared shape, in declared
order; `none` when some declared component is absent. -/
def getComps (comps : List (CompId × Int)) : List CompId → Option (List Int)
  | [] => some []
  | c :: rest =>
      match getComp comps c, getComps comps rest with
      | some v, some vs => some (v :: vs)
      | _, _ => none

/-- Modelled from the spec: the storage engine's query iteration
(`world.query::<(C, ...)>().iter()`): enumerate, in the storage's native
order, every entity whose component set satisfies the declared shape,
yielding that entity's component values in declared order. -/
def World.query (w : World) (shape : List CompId) : List (EntityId × List Int) :=
  w.entities.filterMap (fun p => (getComps p.2 shape).map (fun vs => (p.1, vs)))

/-- The error type of single-entity lookup (hecs `ComponentError`): the
entity does not exist, or it lacks the requested component. -/
inductive ComponentError where
  | NoSuchEntity : ComponentError
  | MissingComponent : CompId → ComponentError
  deriving DecidableEq, Repr

/-- Modelled from the spec: the storage engine's single-entity component
lookup (`world.get`), with a fail-if-absent outcome. -/
def World.get (w : World) (e : EntityId) (c : CompId) : Except ComponentError Int :=
  match w.entities.find? (fun p => p.1 = e) with
  | none => .error .NoSuchEntity
  | some p =>
      match getComp p.2 c with
      | none => .error (.MissingComponent c)
      | some v => .ok v

/-- One deferred structural edit (spec section 4.5): entity spawn,
entity despawn, component insert, component remove. -/
inductive Edit where
  | spawn : List (CompId × Int) → Edit
  | despawn : EntityId → Edit
  | insert : EntityId → CompId → Int → Edit
  | remove : EntityId → CompId → Edit
  deriving DecidableEq, Repr

/-- Modelled from the spec: applying one recorded structural edit to the
world (the storage engine's mutation primitives). -/
def Edit.apply : Edit → World → World
  | .spawn comps, w =>
      { nextId := w.nextId + 1, entities := w.entities ++ [(w.nextId, comps)] }
  | .despawn e, w =>
      { w with entities := w.entities.filter (fun p => ¬ p.1 = e) }
  | .insert e c v, w =>
      { w with entities := w.entities.map (fun p => if p.1 = e then (p.1, setComp p.2 c v) else p) }
  | .remove e c, w =>
      { w with entities := w.entities.map (fun p => if p.1 = e then (p.1, removeComp p.2 c) else p) }

/-- Apply a recorded sequence of edits to the world, in recording order. -/
def applyEdits (es : List Edit) (w : World) : World :=
  es.foldl (fun w e => e.apply w) w

/-- Modelled from the spec: the `Commands` deferred-mutation buffer (crate
file not under the sources given): an ordered sequence of pending
structural edits; handles are cheap shallow clones sharing one buffer. -/
structure Commands where
  edits : List Edit
  deriving DecidableEq, Repr

/-- `Commands::default()`: a fresh empty buffer. -/
def Commands.default : Commands := ⟨[]⟩

/-- Modelled from the spec: the resource container (`Resources`, crate
file not under the sources given).  `values` is the singleton store;
`registered` records each (resource type, unit id) registration made by
an init step; `fetchLog` records every fetch key `(resource type, unit
id)` the container has served, the observable footprint of its per-unit
change tracking. -/
structure Resources where
  values : List (ResId × Int)
  registered : List (ResId × Option Nat)
  fetchLog : List (ResId × Nat)
  deriving DecidableEq, Repr

/-- The current value of a resource type, if present. -/
def Resources.getRes (res : Resources) (r : ResId) : Option Int :=
  match res.values.find? (fun p => p.1 = r) with
  | none => none
  | some p => some p.2

/-- Modelled from the spec: `Resources::query_system::<(R, ...)>(id)` —
fetch each declared resource type once, keyed by the pair
(resource type, unit id) so the container can track per-unit change
state; returns the fetched handles and the container with the fetch
keys recorded. -/
def Resources.query_system (res : Resources) (ids : List ResId) (sid : Nat) :
    List (Option Int) × Resources :=
  (ids.map (fun r => res.getRes r),
   { res with fetchLog := res.fetchLog ++ ids.map (fun r => (r, sid)) })

/-- Modelled from the spec: `ResourceQuery::initialize(resources,
Some(id))` (crate file `resource_query.rs`, not under the sources given)
registers each declared resource type with the container together with
the given unit id, establishing the per-unit tracking slot. -/
def resourcesInit (ids : List ResId) (sid : Option Nat) (res : Resources) : Resources :=
  { res with registered := res.registered ++ ids.map (fun r => (r, sid)) }

/-- `Commands::apply(world, resources)`: modelled from the spec — applies
every recorded edit, in recording order; the edits are structural world
edits, so the resource container passes through. -/
def Commands.apply (c : Commands) (w : World) (res : Resources) : World × Resources :=
  (applyEdits c.edits w, res)

/-- Modelled from the spec: the `ThreadLocalExecution` enum declared in
`system.rs` (not under the sources given); both variants appear in the
source file: `NextFlush` for units built by the signature-driven
constructors, `Immediate` for thread-local units. -/
inductive ThreadLocalExecution where
  | NextFlush : ThreadLocalExecution
  | Immediate : ThreadLocalExecution
  deriving DecidableEq, Repr

/-- The `SystemFn` record (source lines 10-22).  The Rust value holds two
closures `func` and `init_func`; their captured mutable state is the
`funcState` field here and their bodies are passed to the run functions,
so `sigma` is the closure state type. -/
structure SystemFn (σ : Type) where
  funcState : σ
  commands : Commands
  thread_local_execution : ThreadLocalExecution
  name : String
  id : Nat

/-- The declared signature of a for-each shape function: an optional
leading `Commands` parameter, then the declared resource types, then the
declared component types. -/
structure ForEachSig where
  hasCommands : Bool
  resIds : List ResId
  shape : List CompId

/-- The declared signature of a query (aggregate) shape function: an
optional leading `Commands` parameter, then the declared resource types,
then one declared component shape per `Query` parameter. -/
structure QuerySig where
  hasCommands : Bool
  resIds : List ResId
  shapes : List (List CompId)

/-- The argument tuple of one invocation of a for-each shape function:
the clone of the unit's buffer handle (when declared), the fetched
resource handles, and one matching entity's components. -/
structure Call where
  commands : Option Commands
  resources : List (Option Int)
  entity : EntityId
  components : List Int
  deriving DecidableEq, Repr

/-- Build the argument tuple passed for one matching entity
(`fn_call!`, source lines 162-169): a clone of the buffer handle when
the signature declares one, clones of the fetched resources, and the
entity's components. -/
def mkCall (sig : ForEachSig) (buf : Commands) (fetched : List (Option Int))
    (ec : EntityId × List Int) : Call :=
  { commands := if sig.hasCommands then some buf else none
    resources := fetched
    entity := ec.1
    components := ec.2 }

/-- The `for ... in world.query::<(C, ...)>().iter()` loop of the
for-each closure (source lines 84-86): one invocation of the function
per yielded entity.  `f` is the user function body: from its captured
state and the argument tuple it produces its next state and the edits it
records through its buffer handle during that call.  Returns the final
closure state, the argument tuples passed (in order), and the recorded
edits (in recording order). -/
def foreachLoop {σ : Type} (f : σ → Call → σ × List Edit)
    (mk : EntityId × List Int → Call) :
    σ → List (EntityId × List Int) → σ × List Call × List Edit
  | st, [] => (st, [], [])
  | st, ec :: rest =>
      let a := mk ec
      let step := f st a
      let tail := foreachLoop f mk step.1 rest
      (tail.1, a :: tail.2.1, step.2 ++ tail.2.2)

/-- `System::run` of a for-each unit (source lines 37-39 composed with
the constructed closure, lines 82-87): fetch the declared resources once
under the unit's id, iterate every entity matching the declared
component shape, and invoke the function once per match.  Edits the
function records through its handle land in the unit's buffer; the world
is behind a shared borrow and passes through unchanged.  Returns the
updated unit, the argument tuples of the invocations made, the world,
and the resource container. -/
def SystemFn.runForEach {σ : Type} (sig : ForEachSig)
    (f : σ → Call → σ × List Edit) (s : SystemFn σ) (w : World)
    (res : Resources) : SystemFn σ × List Call × World × Resources :=
  let fetched := res.query_system sig.resIds s.id
  let loop := foreachLoop f (mkCall sig s.commands fetched.1) s.funcState (w.query sig.shape)
  ({ s with
      funcState := loop.1
      commands := ⟨s.commands.edits ++ (if sig.hasCommands then loop.2.2 else [])⟩ },
   loop.2.1, w, fetched.2)

/-- The scoped query view (source lines 97-116): a borrow of the world
plus the phantom declared shape. -/
structure Query where
  world : World
  shape : List CompId
  deriving DecidableEq, Repr

/-- `Query::iter` (source lines 103-105): delegates to the world's query
over the declared shape. -/
def Query.iter (q : Query) : List (EntityId × List Int) :=
  q.world.query q.shape

/-- `Query::get` (source lines 107-110): delegates straight to the raw
world lookup; the source carries a TODO in place of a check that the
request matches the declared query shape. -/
def Query.get (q : Query) (e : EntityId) (c : CompId) : Except ComponentError Int :=
  q.world.get e c

/-- `Query::get_mut` (source lines 112-115): same delegation as `get`;
the mutable-aliasing discipline lives in the borrow checker, so the
lookup result is the same. -/
def Query.get_mut (q : Query) (e : EntityId) (c : CompId) : Except ComponentError Int :=
  q.world.get e c

/-- The argument tuple of the single invocation of a query shape
function: the clone of the unit's buffer handle (when declared), the
fetched resource handles, and one scoped query view per declared
shape. -/
structure QueryCall where
  commands : Option Commands
  resources : List (Option Int)
  queries : List Query
  deriving DecidableEq, Repr

/-- `System::run` of a query shape unit (source lines 37-39 composed
with the constructed closure, lines 144-151): fetch the declared
resources once under the unit's id, construct one `Query` view per
declared shape bound to the world reference, and invoke the function
exactly once.  Returns the updated unit, the argument tuples of the
invocations made, the world, and the resource container. -/
def SystemFn.runQuery {σ : Type} (sig : QuerySig)
    (f : σ → QueryCall → σ × List Edit) (s : SystemFn σ) (w : World)
    (res : Resources) : SystemFn σ × List QueryCall × World × Resources :=
  let fetched := res.query_system sig.resIds s.id
  let a : QueryCall :=
    { commands := if sig.hasCommands then some s.commands else none
      resources := fetched.1
      queries := sig.shapes.map (fun sh => ⟨w, sh⟩) }
  let step := f s.funcState a
  ({ s with
      funcState := step.1
      commands := ⟨s.commands.edits ++ (if sig.hasCommands then step.2 else [])⟩ },
   [a], w, fetched.2)

/-- `System::run_thread_local` of a `SystemFn` (source lines 41-44):
take the unit's current buffer, replacing it with `Commands::default()`,
and apply the taken buffer to the world and resources. -/
def SystemFn.run_thread_local {σ : Type} (s : SystemFn σ) (w : World)
    (res : Resources) : SystemFn σ × World × Resources :=
  let taken := s.commands
  let applied := taken.apply w res
  ({ s with commands := Commands.default }, applied.1, applied.2)

/-- `System::initialize` of a `SystemFn` (source lines 46-48 composed
with the constructed `init_func`, lines 88-90 and 153-155): register
each declared resource type with the container under `Some(id)`. -/
def SystemFn.init {σ : Type} (ids : List ResId) (s : SystemFn σ)
    (res : Resources) : SystemFn σ × Resources :=
  (s, resourcesInit ids (some s.id) res)

/-- The for-each constructor (`IntoForEachSystem::system`, source lines
75-92): a fresh default buffer, execution mode `NextFlush`, the
function's type name, and the freshly issued id. -/
def intoForEachSystem {σ : Type} (_sig : ForEachSig) (st : σ) (name : String)
    (id : Nat) : SystemFn σ :=
  { funcState := st
    commands := Commands.default
    thread_local_execution := .NextFlush
    name := name
    id := id }

/-- The query constructor (`IntoQuerySystem::system`, source lines
137-157): same record, execution mode `NextFlush`. -/
def intoQuerySystem {σ : Type} (_sig : QuerySig) (st : σ) (name : String)
    (id : Nat) : SystemFn σ :=
  { funcState := st
    commands := Commands.default
    thread_local_execution := .NextFlush
    name := name
    id := id }

/-- `ThreadLocalSystem` (source lines 248-268): wraps a function needing
exclusive mutable access; `funcState` is the wrapped `FnMut` closure's
captured state. -/
structure ThreadLocalSystem (σ : Type) where
  funcState : σ
  name : String
  id : Nat

/-- `ThreadLocalSystem::new` (source lines 261-267). -/
def ThreadLocalSystem.new {σ : Type} (st : σ) (name : String) (id : Nat) :
    ThreadLocalSystem σ :=
  { funcState := st, name := name, id := id }

/-- `System::thread_local_execution` of a `ThreadLocalSystem` (source
lines 290-292): always `Immediate`. -/
def ThreadLocalSystem.thread_local_execution {σ : Type}
    (_ : ThreadLocalSystem σ) : ThreadLocalExecution :=
  .Immediate

/-- `System::run` of a `ThreadLocalSystem` (source line 294): an empty
body — no state, world or resource change. -/
def ThreadLocalSystem.run {σ : Type} (s : ThreadLocalSystem σ) (w : World)
    (res : Resources) : ThreadLocalSystem σ × World × Resources :=
  (s, w, res)

/-- `System::run_thread_local` of a `ThreadLocalSystem` (source lines
296-298): invoke the wrapped function directly with mutable access to
world and resources. -/
def ThreadLocalSystem.run_thread_local {σ : Type}
    (f : σ → World → Resources → σ × World × Resources)
    (s : ThreadLocalSystem σ) (w : World) (res : Resources) :
    ThreadLocalSystem σ × World × Resources :=
  let step := f s.funcState w res
  ({ s with funcState := step.1 }, step.2.1, step.2.2)

/-- One scheduler-visible operation on a `SystemFn` unit, for stating
invariants over arbitrary operation sequences. -/
inductive SysOp (σ : Type) where
  | doInit : List ResId → Resources → SysOp σ
  | doRunForEach : ForEachSig → (σ → Call → σ × List Edit) → World → Resources → SysOp σ
  | doRunQuery : QuerySig → (σ → QueryCall → σ × List Edit) → World → Resources → SysOp σ
  | doRunThreadLocal : World → Resources → SysOp σ

/-- The unit state after one scheduler operation. -/
def SystemFn.applyOp {σ : Type} (s : SystemFn σ) : SysOp σ → SystemFn σ
  | .doInit ids res => (s.init ids res).1
  | .doRunForEach sig f w res => (s.runForEach sig f w res).1
  | .doRunQuery sig f w res => (s.runQuery sig f w res).1
  | .doRunThreadLocal w res => (s.run_thread_local w res).1

/-- The unit state after a sequence of scheduler operations. -/
def SystemFn.applyOps {σ : Type} (s : SystemFn σ) (ops : List (SysOp σ)) : SystemFn σ :=
  ops.foldl SystemFn.applyOp s

/-- The component-tuple arities of the for-each instances the source
generates: `impl_into_systems` invokes `impl_into_foreach_systems` with
the tuples `(A)` through `(A,...,H)` (source lines 191-206). -/
def foreachComponentCounts : List Nat := [1, 2, 3, 4, 5, 6, 7, 8]

/-- The query-tuple arities of the query instances the source generates:
`impl_into_systems` invokes `impl_into_query_systems` with the tuples
`()` through `(A,...,F)` (source lines 208-221). -/
def queryViewCounts : List Nat := [0, 1, 2, 3, 4, 5, 6]

/-- The resource-tuple arities the source generates: `impl_into_systems`
is invoked with `()` through `(Ra,...,Rj)` (source lines 225-246). -/
def resourceCounts : List Nat := [0, 1, 2, 3, 4, 5, 6, 7, 8, 9, 10]

/-- The buffer-handle arities: `impl_into_foreach_systems` and
`impl_into_query_systems` each emit one instance without and one with a
leading `Commands` parameter (source lines 171-187). -/
def commandsCounts : List Nat := [0, 1]

/-- The set of generated `IntoForEachSystem` instances, as triples
(number of `Commands` parameters, number of resource parameters, number
of component parameters). -/
def foreachInstances : List (Nat × Nat × Nat) :=
  resourceCounts.flatMap (fun r => foreachComponentCounts.flatMap (fun k => commandsCounts.map (fun c => (c, r, k))))

/-- The set of generated `IntoQuerySystem` instances, as triples
(number of `Commands` parameters, number of resource parameters, number
of `Query` view parameters). -/
def queryInstances : List (Nat × Nat × Nat) :=
  resourceCounts.flatMap (fun r => queryViewCounts.flatMap (fun k => commandsCounts.map (fun c => (c, r, k))))

lemma foreachLoop_calls {σ : Type} (f : σ → Call → σ × List Edit)
    (mk : EntityId × List Int → Call) (st : σ) (l : List (EntityId × List Int)) :
    (foreachLoop f mk st l).2.1 = l.map mk := by
  induction l generalizing st with
  | nil => rfl
  | cons ec rest ih => simp [foreachLoop, ih]

lemma getComps_isSome (comps : List (CompId × Int)) (shape : List CompId) :
    (getComps comps shape).isSome = entityMatches shape comps := by
  induction shape with
  | nil => rfl
  | cons c rest ih =>
      have hr : entityMatches (c :: rest) comps = ((getComp comps c).isSome && entityMatches rest comps) := rfl
      rw [hr, ← ih]
      cases h : getComp comps c <;> cases h2 : getComps comps rest <;> simp [getComps, h, h2]

lemma length_filterMap_eq_filter {α β : Type} (g : α → Option β) (p : α → Bool)
    (hg : ∀ x, (g x).isSome = p x) (l : List α) :
    (l.filterMap g).length = (l.filter p).length := by
  induction l with
  | nil => rfl
  | cons x rest ih =>
      have hx := hg x
      cases h : g x with
      | none =>
          rw [h] at hx
          simp only [List.filterMap_cons, h, List.filter_cons, ← hx]
          simpa using ih
      | some y =>
          rw [h] at hx
          simp only [List.filterMap_cons, h, List.filter_cons, ← hx]
          simpa using ih

lemma length_query (w : World) (shape : List CompId) :
    (w.query shape).length = (w.entities.filter (fun p => entityMatches shape p.2)).length := by
  refine length_filterMap_eq_filter _ _ (fun x => ?_) w.entities
  rw [← getComps_isSome x.2 shape]
  cases getComps x.2 shape <;> rfl

lemma applyEdits_append (es1 es2 : List Edit) (w : World) :
    applyEdits (es1 ++ es2) w = applyEdits es2 (applyEdits es1 w) := by
  simp [applyEdits, List.foldl_append]

lemma count_map_pair (ids : List ResId) (sid : Nat) (r : ResId) :
    (ids.map (fun x => (x, sid))).count (r, sid) = ids.count r := by
  induction ids with
  | nil => rfl
  | cons x rest ih =>
      simp only [List.map_cons, List.count_cons, ih]
      by_cases h : x = r <;> simp [h]

lemma applyOp_preserves_execution {σ : Type} (s : SystemFn σ) (op : SysOp σ) :
    (s.applyOp op).thread_local_execution = s.thread_local_execution := by
  cases op <;> rfl

lemma applyOps_preserves_execution {σ : Type} (s : SystemFn σ) (ops : List (SysOp σ)) :
    (s.applyOps ops).thread_local_execution = s.thread_local_execution := by
  induction ops generalizing s with
  | nil => rfl
  | cons op rest ih =>
      have h1 : s.applyOps (op :: rest) = (s.applyOp op).applyOps rest := rfl
      rw [h1, ih, applyOp_preserves_execution]

lemma mem_resourceCounts (x : Nat) : x ∈ resourceCounts ↔ x ≤ 10 := by
  simp [resourceCounts]
  omega

lemma mem_foreachComponentCounts (x : Nat) : x ∈ foreachComponentCounts ↔ 1 ≤ x ∧ x ≤ 8 := by
  simp [foreachComponentCounts]
  omega

lemma mem_queryViewCounts (x : Nat) : x ∈ queryViewCounts ↔ x ≤ 6 := by
  simp [queryViewCounts]
  omega

lemma mem_commandsCounts (x : Nat) : x ∈ commandsCounts ↔ x ≤ 1 := by
  simp [commandsCounts]
  omega

/-- C1: the run of a for-each unit invokes the function exactly K times,
once per entity matching all M declared components (K is the number of
entities whose component sets satisfy the declared shape), and the
argument tuples passed are, in iteration order, exactly one per matched
entity, each assembled by `fn_call!` from the clone of the unit's buffer
handle (when declared), the resources fetched once at the start of the
run under the unit's id, and that entity's component values. -/
theorem foreach_run_invokes_once_per_match {σ : Type} (sig : ForEachSig)
    (f : σ → Call → σ × List Edit) (s : SystemFn σ) (w : World) (res : Resources) :
    (s.runForEach sig f w res).2.1.length
        = (w.entities.filter (fun p => entityMatches sig.shape p.2)).length
    ∧ (s.runForEach sig f w res).2.1
        = (w.query sig.shape).map (mkCall sig s.commands (res.query_system sig.resIds s.id).1) := by
  constructor
  · simp only [SystemFn.runForEach]
    rw [foreachLoop_calls, List.length_map, length_query]
  · simp only [SystemFn.runForEach]
    rw [foreachLoop_calls]

/-- C2: a unit built by the signature-driven constructor records edits
instead of applying them: its run (either shape) leaves the world
untouched, only appending the newly recorded edits after those already
buffered; `run_thread_local` takes the current buffer, replaces it with
a fresh empty one ready for the next run, and applies every taken edit
to the world in recording order, leaving the resources as `Commands::
apply` received them. -/
theorem parallel_run_defers_edits_until_flush {σ : Type} (sig : ForEachSig)
    (qsig : QuerySig) (f : σ → Call → σ × List Edit)
    (g : σ → QueryCall → σ × List Edit) (s : SystemFn σ) (w : World)
    (res : Resources) :
    (s.runForEach sig f w res).2.2.1 = w
    ∧ (s.runQuery qsig g w res).2.2.1 = w
    ∧ (∃ recorded, (s.runForEach sig f w res).1.commands.edits = s.commands.edits ++ recorded)
    ∧ (s.run_thread_local w res).1.commands = Commands.default
    ∧ (s.run_thread_local w res).2.1 = applyEdits s.commands.edits w
    ∧ (s.run_thread_local w res).2.2 = res :=
  ⟨rfl, rfl, ⟨_, rfl⟩, rfl, rfl, rfl⟩

/-- C4: the run of a query shape unit makes exactly one invocation of
the function, passing the clone of the unit's buffer handle (when
declared), the resources fetched once under the unit's id, and one
scoped `Query` view per declared shape, each bound to the live world
reference. -/
theorem query_run_invokes_exactly_once {σ : Type} (sig : QuerySig)
    (g : σ → QueryCall → σ × List Edit) (s : SystemFn σ) (w : World)
    (res : Resources) :
    (s.runQuery sig g w res).2.1.length = 1
    ∧ (s.runQuery sig g w res).2.1
        = [{ commands := if sig.hasCommands then some s.commands else none
             resources := (res.query_system sig.resIds s.id).1
             queries := sig.shapes.map (fun sh => ⟨w, sh⟩) }] :=
  ⟨rfl, rfl⟩

/-- C5: a thread-confined unit always reports `Immediate` execution, its
`run` is a no-op returning unit, world and resources unchanged, and its
`run_thread_local` invokes the wrapped function directly on the world
and resources, threading the closure's captured state. -/
theorem thread_local_system_contract {σ : Type} (s : ThreadLocalSystem σ)
    (w : World) (res : Resources)
    (f : σ → World → Resources → σ × World × Resources) :
    s.thread_local_execution = ThreadLocalExecution.Immediate
    ∧ s.run w res = (s, w, res)
    ∧ ThreadLocalSystem.run_thread_local f s w res
        = ({ s with funcState := (f s.funcState w res).1 },
           (f s.funcState w res).2.1, (f s.funcState w res).2.2) :=
  ⟨rfl, rfl, rfl⟩

/-- C6: each run, of either shape, fetches the declared resources
exactly once, appending to the container's fetch log exactly one key per
declared resource type, each keyed by the pair (resource type, the
unit's own id); the key count per resource type equals its declared
count, so distinct units fetching the same type use their own keys. -/
theorem run_fetch_keyed_by_type_and_unit_id {σ : Type} (sig : ForEachSig)
    (qsig : QuerySig) (f : σ → Call → σ × List Edit)
    (g : σ → QueryCall → σ × List Edit) (s : SystemFn σ) (w : World)
    (res : Resources) :
    (s.runForEach sig f w res).2.2.2.fetchLog
        = res.fetchLog ++ sig.resIds.map (fun r => (r, s.id))
    ∧ (s.runQuery qsig g w res).2.2.2.fetchLog
        = res.fetchLog ++ qsig.resIds.map (fun r => (r, s.id))
    ∧ ∀ r : ResId, (sig.resIds.map (fun x => (x, s.id))).count (r, s.id)
        = sig.resIds.count r :=
  ⟨rfl, rfl, fun r => count_map_pair sig.resIds s.id r⟩

/-- C8: the execution mode is fixed at construction: it is unchanged by
any sequence of `initialize`, `run` (either shape) and
`run_thread_local` calls; both signature-driven constructors produce
`NextFlush` units and thread-confined units report `Immediate`. -/
theorem execution_mode_fixed_at_construction {σ : Type} (s : SystemFn σ)
    (ops : List (SysOp σ)) (sig : ForEachSig) (qsig : QuerySig) (st : σ)
    (n : String) (i : Nat) (t : ThreadLocalSystem σ) :
    (s.applyOps ops).thread_local_execution = s.thread_local_execution
    ∧ (intoForEachSystem sig st n i).thread_local_execution = ThreadLocalExecution.NextFlush
    ∧ (intoQuerySystem qsig st n i).thread_local_execution = ThreadLocalExecution.NextFlush
    ∧ t.thread_local_execution = ThreadLocalExecution.Immediate :=
  ⟨applyOps_preserves_execution s ops, rfl, rfl, rfl⟩

/-- C9: `initialize` on a unit built by either signature-driven
constructor registers each declared resource type with the resource
container, paired with `some` of the unit's own id, establishing the
per-unit tracking slots before any run. -/
theorem init_registers_resources_with_unit_id {σ : Type} (sig : ForEachSig)
    (qsig : QuerySig) (st : σ) (n : String) (i : Nat) (res : Resources) :
    ((intoForEachSystem sig st n i).init sig.resIds res).2.registered
        = res.registered ++ sig.resIds.map (fun r => (r, some i))
    ∧ ((intoQuerySystem qsig st n i).init qsig.resIds res).2.registered
        = res.registered ++ qsig.resIds.map (fun r => (r, some i)) :=
  ⟨rfl, rfl⟩

/-- C7: a scoped query view's `get` (and `get_mut`) on an entity that
does not exist or lacks the requested component returns a `NotFound`
error value — `NoSuchEntity` or `MissingComponent` — and never a
success value, for any declared shape. -/
theorem query_get_missing_is_not_found (w : World) (sh : List CompId)
    (e : EntityId) (c : CompId) (h : w.compOf e c = none) :
    (Query.get ⟨w, sh⟩ e c = Except.error ComponentError.NoSuchEntity
      ∨ Query.get ⟨w, sh⟩ e c = Except.error (ComponentError.MissingComponent c))
    ∧ (∀ v : Int, Query.get ⟨w, sh⟩ e c ≠ Except.ok v)
    ∧ Query.get_mut ⟨w, sh⟩ e c = Query.get ⟨w, sh⟩ e c := by
  have hget : Query.get ⟨w, sh⟩ e c = Except.error ComponentError.NoSuchEntity
      ∨ Query.get ⟨w, sh⟩ e c = Except.error (ComponentError.MissingComponent c) := by
    unfold Query.get World.get
    unfold World.compOf at h
    cases hf : w.entities.find? (fun p => decide (p.1 = e)) with
    | none => simp [hf]
    | some p =>
        rw [hf] at h
        simp only [] at h
        simp [hf, h]
  refine ⟨hget, ?_, rfl⟩
  intro v hv
  cases hget with
  | inl h1 => rw [hv] at h1; exact Except.noConfusion h1
  | inr h1 => rw [hv] at h1; exact Except.noConfusion h1

/-- Witness for C7 at a concrete input: a world with one entity `0`
bearing only component `0`; the lookup of component `1` on entity `0`
and any lookup on the absent entity `5` fall under the theorem. -/
theorem query_get_missing_is_not_found_witness :
    (World.mk 1 [(0, [(0, 5)])]).compOf 0 1 = none
    ∧ ((Query.get ⟨World.mk 1 [(0, [(0, 5)])], [0]⟩ 0 1
          = Except.error ComponentError.NoSuchEntity
        ∨ Query.get ⟨World.mk 1 [(0, [(0, 5)])], [0]⟩ 0 1
          = Except.error (ComponentError.MissingComponent 1))
        ∧ (∀ v : Int, Query.get ⟨World.mk 1 [(0, [(0, 5)])], [0]⟩ 0 1 ≠ Except.ok v)
        ∧ Query.get_mut ⟨World.mk 1 [(0, [(0, 5)])], [0]⟩ 0 1
          = Query.get ⟨World.mk 1 [(0, [(0, 5)])], [0]⟩ 0 1) :=
  ⟨by decide, query_get_missing_is_not_found (World.mk 1 [(0, [(0, 5)])]) [0] 0 1 (by decide)⟩

/-- C3 fails on the code: `Query::get` carries a TODO in place of the
shape check, so a lookup of a component outside the view's declared
shape does not fail with any mismatch error — here the view declares
only component `0`, yet looking component `1` up on entity `0`
succeeds with its value `7`. -/
theorem query_get_outside_shape_succeeds :
    Query.get ⟨World.mk 1 [(0, [(0, 5), (1, 7)])], [0]⟩ 0 1 = Except.ok 7 :=
  rfl

/-- C3 (amended): `get` and `get_mut` perform no validation of the
request against the view's declared shape — the check is an open TODO in
the source — so they delegate directly to the raw world lookup, the
result is independent of the declared shape, and no mismatch error is
ever produced: the lookup succeeds exactly when the raw world lookup
does. -/
theorem query_get_ignores_declared_shape (w : World) (sh1 sh2 : List CompId)
    (e : EntityId) (c : CompId) :
    Query.get ⟨w, sh1⟩ e c = w.get e c
    ∧ Query.get ⟨w, sh1⟩ e c = Query.get ⟨w, sh2⟩ e c
    ∧ Query.get_mut ⟨w, sh1⟩ e c = w.get e c :=
  ⟨rfl, rfl, rfl⟩

/-- C10: the source generates an `IntoForEachSystem` instance exactly
for 0 or 1 leading `Commands` parameters, 0 to 10 resource parameters
and 1 to 8 component parameters, and an `IntoQuerySystem` instance
exactly for 0 or 1 leading `Commands` parameters, 0 to 10 resource
parameters and 0 to 6 `Query` view parameters; no arity outside those
bounds is constructible by this file. -/
theorem constructor_arity_bounds (c r k : Nat) :
    ((c, r, k) ∈ foreachInstances ↔ (c ≤ 1 ∧ r ≤ 10 ∧ 1 ≤ k ∧ k ≤ 8))
    ∧ ((c, r, k) ∈ queryInstances ↔ (c ≤ 1 ∧ r ≤ 10 ∧ k ≤ 6)) := by
  constructor
  · simp only [foreachInstances, List.mem_flatMap, List.mem_map,
      mem_resourceCounts, mem_foreachComponentCounts, mem_commandsCounts,
      Prod.mk.injEq]
    constructor
    · rintro ⟨r0, hr0, k0, hk0, c0, hc0, rfl, rfl, rfl⟩
      exact ⟨hc0, hr0, hk0.1, hk0.2⟩
    · rintro ⟨hc, hr, hk1, hk2⟩
      exact ⟨r, hr, k, ⟨hk1, hk2⟩, c, hc, rfl, rfl, rfl⟩
  · simp only [queryInstances, List.mem_flatMap, List.mem_map,
      mem_resourceCounts, mem_queryViewCounts, mem_commandsCounts,
      Prod.mk.injEq]
    constructor
    · rintro ⟨r0, hr0, k0, hk0, c0, hc0, rfl, rfl, rfl⟩
      exact ⟨hc0, hr0, hk0⟩
    · rintro ⟨hc, hr, hk⟩
      exact ⟨r, hr, k, hk, c, hc, rfl, rfl, rfl⟩
